import Mathlib

/-!
Verification of the modal G-code interpreter `parse_gcode_for_time_and_tools`
from `app.py`.

The Python function is embedded shallowly:
* Python floats are modelled as exact rationals (ℚ); `math.sqrt` is modelled
  by `sqrtQ`, which is exact on perfect squares of rationals and always
  non-negative (the only facts about the square root the program relies on).
* The regular-expression token extraction (`re.search` / `re.findall`) is
  embedded as deterministic left-to-right scanners with the same leftmost-match
  semantics as the Python patterns.
* `float(...)` applied to a captured numeric text can raise `ValueError` in
  Python; this fallibility is modelled with `Except PyError`.
* `str.splitlines` is modelled for the line breaks LF, CR and CRLF.
-/

namespace Tolls

/-- Error raised by Python `float(...)` on unparsable numeric text. -/
inductive PyError where
  | valueError
deriving DecidableEq

/-- Motion mode, the modal G0 / G1 state of the machine. -/
inductive Motion where
  | G0
  | G1
deriving DecidableEq

/-- Machine state of the virtual machine (position, modal feed, spindle
speed, feed mode and motion mode), mirroring the local variables
`pos`, `feed`, `rpm`, `g95_active`, `motion_mode` of the Python function. -/
structure Machine where
  posX : ℚ
  posY : ℚ
  posZ : ℚ
  rpm : ℚ
  feed : ℚ
  g95 : Bool
  motion : Motion
deriving DecidableEq

/-- One emitted group record, mirroring the dictionary built at
`GROUP_BEGIN`: tool id (`Herramienta`), group name (`Grupo`), accumulated
cut time and distance, and the sets of feed and rpm values seen. -/
structure GroupRecord where
  herramienta : List Char
  grupo : List Char
  tiempo : ℚ
  distancia : ℚ
  avances : Finset ℚ
  rpms : Finset ℕ
deriving DecidableEq

/-- Full parser state: machine state, emitted records, and the currently
open group (if any). -/
structure ParseState where
  mach : Machine
  results : List GroupRecord
  current : Option GroupRecord
deriving DecidableEq

/-- Characters matched by the regex class `[-\d.]`. -/
def isNumChar (c : Char) : Bool :=
  c = '-' || c = '.' || c.isDigit

/-- Characters matched by the regex class `[XYZ]`. -/
def isAxisChar (c : Char) : Bool :=
  c = 'X' || c = 'Y' || c = 'Z'

/-- Characters matched by the Python regex class `\s` (ASCII part). -/
def isPySpace (c : Char) : Bool :=
  c = ' ' || c = '\t' || c = '\n' || c = '\r' || c = Char.ofNat 11 || c = Char.ofNat 12

/-- Value of a list of decimal digit characters. -/
def digitsVal (cs : List Char) : ℕ :=
  cs.foldl (fun n c => 10 * n + (c.toNat - 48)) 0

/-- Python `float` on an unsigned text over the alphabet `[-\d.]`:
digits with at most one dot and at least one digit; anything else
(such as a stray sign or second dot) is a `ValueError`, i.e. `none`. -/
def pyFloatCore (cs : List Char) : Option ℚ :=
  let ip := cs.takeWhile Char.isDigit
  let rest := cs.dropWhile Char.isDigit
  match rest with
  | [] => if ip.isEmpty then none else some (digitsVal ip : ℚ)
  | '.' :: frac =>
      if frac.all Char.isDigit && (!ip.isEmpty || !frac.isEmpty) then
        some ((digitsVal ip : ℚ) + (digitsVal frac : ℚ) / (10 ^ frac.length : ℚ))
      else none
  | _ => none

/-- Python `float` on a captured text over the alphabet `[-\d.]`:
an optional leading minus sign, then an unsigned decimal number. -/
def pyFloat : List Char → Option ℚ
  | '-' :: rest => (pyFloatCore rest).map Neg.neg
  | cs => pyFloatCore cs

/-- Fuelled linear search for the integer square root: the largest `k`
reachable from the accumulator with `(k + 1) ^ 2 ≤ n`. -/
def natSqrtAux (n : ℕ) : ℕ → ℕ → ℕ
  | 0, k => k
  | fuel + 1, k => if (k + 1) * (k + 1) ≤ n then natSqrtAux n fuel (k + 1) else k

/-- Integer square root (floor), structurally recursive so that concrete
computations reduce in the kernel. -/
def natSqrt (n : ℕ) : ℕ :=
  natSqrtAux n n 0

/-- Model of `math.sqrt` on the rational embedding of floats: exact on
perfect squares of rationals (every distance occurring in the concrete
scenarios), always non-negative, and positive exactly on positive input. -/
def sqrtQ (q : ℚ) : ℚ :=
  (natSqrt q.num.toNat : ℚ) / (natSqrt q.den : ℚ)

/-- The literal text of the pattern `GROUP_BEGIN\(`. -/
def gbPat : List Char := "GROUP_BEGIN(".toList

/-- The literal pattern `GROUP_END`. -/
def gePat : List Char := "GROUP_END".toList

/-- The literal substring `G95`. -/
def g95Pat : List Char := "G95".toList

/-- The literal substring `G94`. -/
def g94Pat : List Char := "G94".toList

/-- Does the pattern occur at the head of the text? -/
def leadsWith : List Char → List Char → Bool
  | [], _ => true
  | _ :: _, [] => false
  | p :: ps, c :: cs => p = c && leadsWith ps cs

/-- Does the pattern occur anywhere in the text (regex `search` on a
literal pattern)? -/
def hasSub (pat : List Char) : List Char → Bool
  | [] => leadsWith pat []
  | c :: rest => leadsWith pat (c :: rest) || hasSub pat rest

/-- Tail of a `GROUP_BEGIN(` match: `[^,]*,\s*"([^"]*)"` — skip to the
first comma, skip whitespace, require an opening quote, capture up to the
closing quote, require the closing quote. -/
def groupBeginTail (cs : List Char) : Option (List Char) :=
  match cs.dropWhile (fun c => c != ',') with
  | ',' :: rest =>
      match rest.dropWhile isPySpace with
      | '"' :: rest2 =>
          match rest2.dropWhile (fun c => c != '"') with
          | '"' :: _ => some (rest2.takeWhile (fun c => c != '"'))
          | _ => none
      | _ => none
  | _ => none

/-- `re.search` of `GROUP_BEGIN\([^,]*,\s*"([^"]*)"`: leftmost occurrence
of the literal prefix whose tail completes the pattern; returns the
captured group name. -/
def searchGroupBegin : List Char → Option (List Char)
  | [] => none
  | c :: rest =>
      if leadsWith gbPat (c :: rest) then
        match groupBeginTail ((c :: rest).drop 12) with
        | some n => some n
        | none => searchGroupBegin rest
      else searchGroupBegin rest

/-- `re.search` of `T="([^"]*)"`: the capture of the leftmost match.
If the tail after a `T="` has no closing quote, no later occurrence can
have one either, so the search fails. -/
def searchTool : List Char → Option (List Char)
  | 'T' :: '=' :: '"' :: rest =>
      match rest.dropWhile (fun c => c != '"') with
      | '"' :: _ => some (rest.takeWhile (fun c => c != '"'))
      | _ => none
  | _ :: rest => searchTool rest
  | [] => none

/-- `re.search` of `F([-\d.]+)`: capture of the leftmost `F` followed by
at least one character of the numeric alphabet. -/
def searchFeed : List Char → Option (List Char)
  | 'F' :: rest =>
      match rest with
      | c :: _ => if isNumChar c then some (rest.takeWhile isNumChar) else searchFeed rest
      | [] => none
  | _ :: rest => searchFeed rest
  | [] => none

/-- `re.search` of `S(\d+)`: capture of the leftmost `S` followed by at
least one digit. -/
def searchRpm : List Char → Option (List Char)
  | 'S' :: rest =>
      match rest with
      | c :: _ => if c.isDigit then some (rest.takeWhile Char.isDigit) else searchRpm rest
      | [] => none
  | _ :: rest => searchRpm rest
  | [] => none

/-- `re.search` of `G0?([01])` with backtracking on the optional `0`:
`G00`/`G0x`/`G0` give motion G0 unless the digit after `G0` is `1`;
`G01` and `G1` give motion G1. -/
def searchG : List Char → Option Motion
  | 'G' :: '0' :: rest =>
      match rest with
      | '0' :: _ => some Motion.G0
      | '1' :: _ => some Motion.G1
      | _ => some Motion.G0
  | 'G' :: '1' :: _ => some Motion.G1
  | _ :: rest => searchG rest
  | [] => none

/-- Fuelled scanner for `re.findall` of `([XYZ])([-\d.]+)`: non-overlapping
leftmost matches; each step consumes at least one character, so fuel equal
to the length of the text suffices. -/
def findCoordsAux : ℕ → List Char → List (Char × List Char)
  | 0, _ => []
  | _ + 1, [] => []
  | n + 1, c :: rest =>
      if isAxisChar c then
        match rest with
        | d :: _ =>
            if isNumChar d then
              (c, rest.takeWhile isNumChar) :: findCoordsAux n (rest.dropWhile isNumChar)
            else findCoordsAux n rest
        | [] => []
      else findCoordsAux n rest

/-- `re.findall` of `([XYZ])([-\d.]+)`: all non-overlapping matches, in
order, as (axis, numeric text) pairs. -/
def findCoords (cs : List Char) : List (Char × List Char) :=
  findCoordsAux cs.length cs

/-- Python `str.splitlines` restricted to the LF, CR and CRLF breaks
(no trailing empty line for a trailing break; empty input gives no lines). -/
def pySplitlinesAux : List Char → List Char → List (List Char)
  | [], acc => if acc.isEmpty then [] else [acc.reverse]
  | '\r' :: '\n' :: rest, acc => acc.reverse :: pySplitlinesAux rest []
  | '\n' :: rest, acc => acc.reverse :: pySplitlinesAux rest []
  | '\r' :: rest, acc => acc.reverse :: pySplitlinesAux rest []
  | c :: rest, acc => pySplitlinesAux rest (c :: acc)

/-- Split file content into lines as `file_content.splitlines()` does. -/
def pySplitlines (cs : List Char) : List (List Char) :=
  pySplitlinesAux cs []

/-- The `time_for_move` computation of the source (lines 99-103 of
`app.py`): per-revolution formula when G95 is active with positive rpm and
feed, per-minute formula when G94 is active with positive feed, else 0. -/
def timeForMove (g95 : Bool) (rpm feed dist : ℚ) : ℚ :=
  if g95 = true ∧ 0 < rpm ∧ 0 < feed then dist / (feed * rpm) * 60
  else if g95 = false ∧ 0 < feed then dist / feed * 60
  else 0

/-- The charging step (lines 98-106 of `app.py`): when the motion mode is
G1 and the computed distance is positive, add the move time and the
distance to the open group; otherwise leave the group unchanged. -/
def chargeMove (m : Machine) (g : GroupRecord) (d : ℚ) : GroupRecord :=
  if m.motion = Motion.G1 ∧ 0 < d then
    { g with tiempo := g.tiempo + timeForMove m.g95 m.rpm m.feed d,
             distancia := g.distancia + d }
  else g

/-- Fold the coordinate captures into a target position, converting each
captured text with `float` (lines 86-88 of `app.py`); the first unparsable
capture raises `ValueError`. -/
def applyCoordList : ℚ × ℚ × ℚ → List (Char × List Char) → Except PyError (ℚ × ℚ × ℚ)
  | t, [] => Except.ok t
  | (x, y, z), (a, txt) :: rest =>
      match pyFloat txt with
      | none => Except.error PyError.valueError
      | some v =>
          applyCoordList
            (if a = 'X' then (v, y, z) else if a = 'Y' then (x, v, z) else (x, y, v)) rest

/-- Movement processing (lines 84-109 of `app.py`): if the line carries
coordinate tokens, compute the target, the Euclidean distance from the
current position, charge the move, and always update the position. -/
def applyCoords (m : Machine) (g : GroupRecord) (line : List Char) :
    Except PyError (Machine × GroupRecord) :=
  match findCoords line with
  | [] => Except.ok (m, g)
  | cs =>
      match applyCoordList (m.posX, m.posY, m.posZ) cs with
      | Except.error e => Except.error e
      | Except.ok (tx, ty, tz) =>
          Except.ok
            ({ m with posX := tx, posY := ty, posZ := tz },
             chargeMove m g
               (sqrtQ ((tx - m.posX) * (tx - m.posX) + (ty - m.posY) * (ty - m.posY) +
                 (tz - m.posZ) * (tz - m.posZ))))

/-- Motion-mode update (lines 59-61 of `app.py`). -/
def applyMotion (m : Machine) (line : List Char) : Machine :=
  match searchG line with
  | some mo => { m with motion := mo }
  | none => m

/-- Feed-mode update (lines 63-66 of `app.py`): the `G95` check runs
before the `G94` check, so `G94` wins on a line containing both. -/
def applyFeedMode (m : Machine) (line : List Char) : Machine :=
  let m1 := if hasSub g95Pat line then { m with g95 := true } else m
  if hasSub g94Pat line then { m1 with g95 := false } else m1

/-- Spindle-speed update (lines 68-71 of `app.py`): set the modal rpm and
record the integer value in the open group's rpm set. -/
def applyRpm (m : Machine) (g : GroupRecord) (line : List Char) : Machine × GroupRecord :=
  match searchRpm line with
  | none => (m, g)
  | some ds =>
      (⟨m.posX, m.posY, m.posZ, (digitsVal ds : ℚ), m.feed, m.g95, m.motion⟩,
       { g with rpms := insert (digitsVal ds) g.rpms })

/-- Feed update (lines 73-77 of `app.py`): convert the captured text with
`float` (which can raise), set the modal feed and record the value in the
open group's feed set. -/
def applyFeed (m : Machine) (g : GroupRecord) (line : List Char) :
    Except PyError (Machine × GroupRecord) :=
  match searchFeed line with
  | none => Except.ok (m, g)
  | some txt =>
      match pyFloat txt with
      | none => Except.error PyError.valueError
      | some v =>
          Except.ok
            (⟨m.posX, m.posY, m.posZ, m.rpm, v, m.g95, m.motion⟩,
             { g with avances := insert v g.avances })

/-- Tool update (lines 79-81 of `app.py`). -/
def applyTool (g : GroupRecord) (line : List Char) : GroupRecord :=
  match searchTool line with
  | some t => { g with herramienta := t }
  | none => g

/-- The fresh record created at a `GROUP_BEGIN` (lines 42-49 of `app.py`). -/
def freshGroup (name : List Char) : GroupRecord :=
  { herramienta := "N/A".toList, grupo := name, tiempo := 0, distancia := 0,
    avances := ∅, rpms := ∅ }

/-- Group-open handling (lines 38-49 of `app.py`): if a begin marker
matches, emit the still-open group (if any) and open a fresh one. -/
def applyGroupBegin (st : ParseState) (line : List Char) : ParseState :=
  match searchGroupBegin line with
  | none => st
  | some name =>
      { st with
        results := match st.current with
          | some g => st.results ++ [g]
          | none => st.results,
        current := some (freshGroup name) }

/-- Group-close handling (lines 51-53 of `app.py`): if an end marker is
present and a group is open, emit it and clear the current group. -/
def applyGroupEnd (st : ParseState) (line : List Char) : ParseState :=
  if hasSub gePat line then
    match st.current with
    | some g => { st with results := st.results ++ [g], current := none }
    | none => st
  else st

/-- All modal-state and accumulation work done on a line while a group is
open (lines 58-109 of `app.py`), in source order: motion code, feed-mode
flags, spindle, feed, tool, then movement. -/
def processTokens (m : Machine) (g : GroupRecord) (line : List Char) :
    Except PyError (Machine × GroupRecord) :=
  let m1 := applyFeedMode (applyMotion m line) line
  match applyRpm m1 g line with
  | (m2, g2) =>
      match applyFeed m2 g2 line with
      | Except.error e => Except.error e
      | Except.ok (m3, g3) => applyCoords m3 (applyTool g3 line) line

/-- One iteration of the `for line in file_content.splitlines()` loop:
group markers first, then — only if a group is open — the token work. -/
def processLine (st : ParseState) (line : List Char) : Except PyError ParseState :=
  let st1 := applyGroupEnd (applyGroupBegin st line) line
  match st1.current with
  | none => Except.ok st1
  | some g =>
      match processTokens st1.mach g line with
      | Except.error e => Except.error e
      | Except.ok (m, g2) =>
          Except.ok { mach := m, results := st1.results, current := some g2 }

/-- Run the loop over the remaining lines, propagating the first error. -/
def runLines : ParseState → List (List Char) → Except PyError ParseState
  | st, [] => Except.ok st
  | st, l :: ls =>
      match processLine st l with
      | Except.ok st2 => runLines st2 ls
      | Except.error e => Except.error e

/-- The initial state (lines 15-25 of `app.py`): origin position, rpm 1,
feed 0, per-minute mode, rapid motion, no results, no open group. -/
def initState : ParseState :=
  { mach := { posX := 0, posY := 0, posZ := 0, rpm := 1, feed := 0,
              g95 := false, motion := Motion.G0 },
    results := [], current := none }

/-- The whole of `parse_gcode_for_time_and_tools`: run the loop over the
lines and append the still-open group at end-of-input (lines 111-114). -/
def parse (s : String) : Except PyError (List GroupRecord) :=
  match runLines initState (pySplitlines s.toList) with
  | Except.error e => Except.error e
  | Except.ok st =>
      Except.ok
        (match st.current with
         | some g => st.results ++ [g]
         | none => st.results)

/-- Is the numeric payload of a matched feed token parsable by `float`?
(Vacuously true when the line has no feed token.) -/
def feedTokenOk (line : List Char) : Bool :=
  match searchFeed line with
  | some t => (pyFloat t).isSome
  | none => true

/-- Are the numeric payloads of all matched coordinate tokens parsable by
`float`? -/
def coordTokensOk (line : List Char) : Bool :=
  (findCoords line).all (fun p => (pyFloat p.2).isSome)

/-- Every numeric payload matched on the line parses as a float, so the
line cannot raise `ValueError`. -/
def lineNumericOk (line : List Char) : Bool :=
  feedTokenOk line && coordTokensOk line

/-- The accumulators of a group record are non-negative. -/
def recOk (g : GroupRecord) : Prop :=
  0 ≤ g.tiempo ∧ 0 ≤ g.distancia

/-- All emitted records and the open record (if any) have non-negative
accumulators. -/
def stOk (st : ParseState) : Prop :=
  (∀ g ∈ st.results, recOk g) ∧ (∀ g, st.current = some g → recOk g)

/-- Input of the feed-mode scenario of claim C1: a G95 group and a G94
group with the same feed and move length. -/
def c1Input : String :=
  "GROUP_BEGIN(a,\"A\")\nG95\nS1000\nF0.1\nG1 X10\nGROUP_END\nGROUP_BEGIN(b,\"B\")\nG94\nG1 X20\nGROUP_END"

/-- Input of claim C2: a move inside group A, then a nested group-open for
B, then a move whose distance must start from the end of A's move. -/
def c2Input : String :=
  "GROUP_BEGIN(a,\"A\")\nF1\nG1 X10\nGROUP_BEGIN(b,\"B\")\nG1 X20\nGROUP_END"

/-- A parser state with group A open, used to witness claim C2. -/
def c2WitState : ParseState :=
  { mach := initState.mach, results := [], current := some (freshGroup "A".toList) }

/-- A line opening group B, used to witness claim C2. -/
def c2WitLine : List Char := "GROUP_BEGIN(b,\"B\")".toList

/-- Input whose feed token has the unparsable payload text made of a bare
minus sign: Python `float` raises `ValueError` on it. -/
def c3BadInput : String := "GROUP_BEGIN(a,\"A\")\nF-"

/-- Input all of whose numeric payloads are parsable. -/
def c3GoodInput : String := "GROUP_BEGIN(a,\"A\")\nF1 X2.5\nGROUP_END"

/-- A line carrying coordinate, feed, spindle, tool, motion-code and
feed-mode tokens but no group marker, used to witness claim C4. -/
def c4Line : List Char := "G1 G95 X10 F100 S500 T=\"D\" G94".toList

/-- Input of claim C5: a line with motion, feed and coordinate tokens
strictly between `GROUP_END` and the next `GROUP_BEGIN`. -/
def c5Input : String :=
  "GROUP_BEGIN(a,\"A\")\nGROUP_END\nG1 F2 X10\nGROUP_BEGIN(b,\"B\")\nG1 X10\nGROUP_END"

/-- The between-groups line of the claim C5 scenario. -/
def c5BetweenLine : List Char := "G1 F2 X10".toList

/-- Input of claim C6: a cutting move with the default feed 0. -/
def c6Input : String := "GROUP_BEGIN(a,\"A\")\nG1 X10\nGROUP_END"

/-- A machine in linear motion mode with feed 0, used to witness claim C6. -/
def c6WitMach : Machine :=
  { posX := 0, posY := 0, posZ := 0, rpm := 1, feed := 0, g95 := false, motion := Motion.G1 }

/-- Input of claim C7: a group whose body contains only rapid moves. -/
def c7aInput : String := "GROUP_BEGIN(a,\"A\")\nG0 X10\nX20 Y5\nGROUP_END"

/-- Input of claim C7: a rapid move in group A moves the position, and the
cutting move of group B is measured from that position. -/
def c7bInput : String :=
  "GROUP_BEGIN(a,\"A\")\nG0 X10\nGROUP_BEGIN(b,\"B\")\nF60\nG1 X20\nGROUP_END"

/-- Input of claim C8's witness: a negative modal feed via `F-100`. -/
def c8Input : String := "GROUP_BEGIN(a,\"A\")\nF-100\nG1 X10\nGROUP_END"

/-- The single record produced by parsing `c8Input`. -/
def c8Rec : GroupRecord :=
  { herramienta := "N/A".toList, grupo := "A".toList, tiempo := 0, distancia := 10,
    avances := {(-100 : ℚ)}, rpms := ∅ }

/-- The exact end-to-end input of claim C9. -/
def c9Input : String := "GROUP_BEGIN(x,\"Roughing\")\nG1 F500 X100\nG0 X0\nGROUP_END"

/-- A line carrying only an unmatched `GROUP_END`, used to witness claim C10. -/
def c10Line : List Char := "GROUP_END".toList

-- A line processed while no group is open and not opening one is a
-- complete no-op (lines 51-56 of `app.py`): the group-end check requires
-- an open group and everything after the `continue` is skipped.
theorem processLine_inert (st : ParseState) (line : List Char)
    (h1 : st.current = none) (h2 : searchGroupBegin line = none) :
    processLine st line = Except.ok st := by
  have hb : applyGroupBegin st line = st := by
    unfold applyGroupBegin
    rw [h2]
  have he : applyGroupEnd st line = st := by
    unfold applyGroupEnd
    rw [h1]
    split <;> rfl
  simp only [processLine, hb, he, h1]

-- Iterating `processLine_inert` over a block of marker-free lines.
theorem runLines_inert (st : ParseState) (ls : List (List Char))
    (h1 : st.current = none) (h2 : ∀ l ∈ ls, searchGroupBegin l = none) :
    runLines st ls = Except.ok st := by
  induction ls with
  | nil => rfl
  | cons l ls ih =>
      have hp := processLine_inert st l h1 (h2 l (List.mem_cons_self l ls))
      simp only [runLines, hp]
      exact ih (fun x hx => h2 x (List.mem_cons_of_mem l hx))

/-- Claim C4: while no group is open (and the line does not itself open
one, which would make a group open for the rest of the line), only group
markers are evaluated: a line carrying coordinate, feed, spindle, tool,
motion-code or feed-mode tokens leaves the machine state, the output
sequence and the whole parser state unchanged. -/
theorem claim_C4 (st : ParseState) (line : List Char)
    (h1 : st.current = none) (h2 : searchGroupBegin line = none) :
    processLine st line = Except.ok st :=
  processLine_inert st line h1 h2

/-- Witness for claim C4 at a line with coordinate, feed, spindle, tool,
motion-code and feed-mode tokens, processed in the initial (group-less)
state. -/
theorem claim_C4_witness : processLine initState c4Line = Except.ok initState :=
  claim_C4 initState c4Line rfl (by decide)

/-- Claim C5 is false on the code: the counterexample processes the line
`G1 F2 X10` while no group is open and the state — position, feed and
motion mode included — is returned unchanged; consequently in the claim's
own scenario group B's move `G1 X10` is measured from X=0 (distance 10),
not from X=10 (distance 0) as position continuity would demand, and B's
time is 0 because the feed value 2 from the between-groups line was
dropped. -/
theorem claim_C5_counterexample :
    processLine initState c5BetweenLine = Except.ok initState ∧
    parse c5Input =
      Except.ok
        [{ herramienta := "N/A".toList, grupo := "A".toList, tiempo := 0, distancia := 0,
           avances := ∅, rpms := ∅ },
         { herramienta := "N/A".toList, grupo := "B".toList, tiempo := 0, distancia := 10,
           avances := ∅, rpms := ∅ }] := by
  constructor
  · with_unfolding_all rfl
  · with_unfolding_all rfl

/-- Claim C5 amended: position, feed and motion-mode machine state does
NOT evolve between groups — every block of lines processed while no group
is open (none of them opening a group) leaves the parser state exactly
unchanged, so the next group resumes from the state frozen at the
previous group's close. -/
theorem claim_C5 (st : ParseState) (ls : List (List Char))
    (h1 : st.current = none) (h2 : ∀ l ∈ ls, searchGroupBegin l = none) :
    runLines st ls = Except.ok st :=
  runLines_inert st ls h1 h2

/-- Witness for the amended claim C5 at the between-groups block
consisting of the line `G1 F2 X10`. -/
theorem claim_C5_witness : runLines initState [c5BetweenLine] = Except.ok initState :=
  claim_C5 initState [c5BetweenLine] rfl (by decide)

/-- Claim C10: a line containing a `GROUP_END` token processed while no
group is open (and not opening one itself) is a complete no-op — no
record is emitted and the parser state is returned exactly unchanged. -/
theorem claim_C10 (st : ParseState) (line : List Char)
    (h1 : st.current = none) (h2 : hasSub gePat line = true)
    (h3 : searchGroupBegin line = none) :
    processLine st line = Except.ok st :=
  processLine_inert st line h1 h3

/-- Witness for claim C10 at the line `GROUP_END` in the initial state. -/
theorem claim_C10_witness : processLine initState c10Line = Except.ok initState :=
  claim_C10 initState c10Line rfl (by decide) (by decide)

/-- Claim C2: a group-open marker met while a group is still open first
emits the open group and then opens the fresh one (no error), and machine
position persists across that boundary: in the concrete scenario the move
`G1 X10` is charged to group A, and after `GROUP_BEGIN(b,"B")` the move
`G1 X20` charges group B a distance of 10 (measured from X=10), not 20. -/
theorem claim_C2 (st : ParseState) (g : GroupRecord) (line name : List Char)
    (h1 : st.current = some g) (h2 : searchGroupBegin line = some name) :
    applyGroupBegin st line =
      { mach := st.mach, results := st.results ++ [g], current := some (freshGroup name) } ∧
    parse c2Input =
      Except.ok
        [{ herramienta := "N/A".toList, grupo := "A".toList, tiempo := 600, distancia := 10,
           avances := {(1 : ℚ)}, rpms := ∅ },
         { herramienta := "N/A".toList, grupo := "B".toList, tiempo := 600, distancia := 10,
           avances := ∅, rpms := ∅ }] := by
  constructor
  · unfold applyGroupBegin
    rw [h2, h1]
  · with_unfolding_all rfl

/-- Witness for claim C2: group A open, a line opening group B. -/
theorem claim_C2_witness :
    applyGroupBegin c2WitState c2WitLine =
      { mach := c2WitState.mach, results := c2WitState.results ++ [freshGroup "A".toList],
        current := some (freshGroup ("B".toList)) } ∧
    parse c2Input =
      Except.ok
        [{ herramienta := "N/A".toList, grupo := "A".toList, tiempo := 600, distancia := 10,
           avances := {(1 : ℚ)}, rpms := ∅ },
         { herramienta := "N/A".toList, grupo := "B".toList, tiempo := 600, distancia := 10,
           avances := ∅, rpms := ∅ }] :=
  claim_C2 c2WitState (freshGroup "A".toList) c2WitLine ("B".toList) rfl (by decide)

/-- Claim C1: for a cutting move of positive distance the charged time
follows the two feed-mode formulas of the source — per-revolution
`(d / (feed * rpm)) * 60` when G95 is active with positive rpm and feed,
per-minute `(d / feed) * 60` when G94 is active with positive feed — and
in the concrete scenario `G95, S1000, F0.1, G1 X10` the 10mm move is
charged 6 seconds while the later identical move after `G94` is charged
6000 seconds. -/
theorem claim_C1 (d r f : ℚ) (hd : 0 < d) :
    (0 < r → 0 < f → timeForMove true r f d = d / (f * r) * 60) ∧
    (0 < f → timeForMove false r f d = d / f * 60) ∧
    parse c1Input =
      Except.ok
        [{ herramienta := "N/A".toList, grupo := "A".toList, tiempo := 6, distancia := 10,
           avances := {(1 : ℚ) / 10}, rpms := {1000} },
         { herramienta := "N/A".toList, grupo := "B".toList, tiempo := 6000, distancia := 10,
           avances := ∅, rpms := ∅ }] := by
  refine ⟨?_, ?_, ?_⟩
  · intro hr hf
    unfold timeForMove
    rw [if_pos ⟨rfl, hr, hf⟩]
  · intro hf
    unfold timeForMove
    rw [if_neg (fun hcon => Bool.false_ne_true hcon.1), if_pos ⟨rfl, hf⟩]
  · with_unfolding_all rfl

/-- Witness for claim C1 at distance 10, rpm 1000, feed 1/10 — the values
of its own G95 scenario. -/
theorem claim_C1_witness :
    timeForMove true 1000 ((1 : ℚ) / 10) 10 = 10 / ((1 : ℚ) / 10 * 1000) * 60 :=
  (claim_C1 10 1000 ((1 : ℚ) / 10) (by norm_num)).1 (by norm_num) (by norm_num)

/-- Claim C6: for a move processed with motion mode G1 and positive
distance, the distance is always added to the group's cut distance, and
when the modal feed is not positive no time can be computed, so the
charged time for the move is 0 and the accumulated time is unchanged; in
the concrete scenario (`G1 X10` with the default feed 0) the group ends
with distance 10 and time 0. -/
theorem claim_C6 (m : Machine) (g : GroupRecord) (d : ℚ)
    (h1 : m.motion = Motion.G1) (hd : 0 < d) :
    (chargeMove m g d).distancia = g.distancia + d ∧
    (m.feed ≤ 0 →
      timeForMove m.g95 m.rpm m.feed d = 0 ∧ (chargeMove m g d).tiempo = g.tiempo) ∧
    parse c6Input =
      Except.ok
        [{ herramienta := "N/A".toList, grupo := "A".toList, tiempo := 0, distancia := 10,
           avances := ∅, rpms := ∅ }] := by
  refine ⟨?_, ?_, ?_⟩
  · unfold chargeMove
    rw [if_pos ⟨h1, hd⟩]
  · intro hf
    have ht : timeForMove m.g95 m.rpm m.feed d = 0 := by
      unfold timeForMove
      rw [if_neg (fun hcon => absurd hcon.2.2 (not_lt.mpr hf)),
        if_neg (fun hcon => absurd hcon.2 (not_lt.mpr hf))]
    refine ⟨ht, ?_⟩
    unfold chargeMove
    rw [if_pos ⟨h1, hd⟩]
    show g.tiempo + timeForMove m.g95 m.rpm m.feed d = g.tiempo
    rw [ht, add_zero]
  · with_unfolding_all rfl

/-- Witness for claim C6 at a G1 machine with feed 0 and distance 5. -/
theorem claim_C6_witness :
    (chargeMove c6WitMach (freshGroup "W".toList) 5).distancia =
      (freshGroup "W".toList).distancia + 5 ∧
    (c6WitMach.feed ≤ 0 →
      timeForMove c6WitMach.g95 c6WitMach.rpm c6WitMach.feed 5 = 0 ∧
      (chargeMove c6WitMach (freshGroup "W".toList) 5).tiempo = (freshGroup "W".toList).tiempo) ∧
    parse c6Input =
      Except.ok
        [{ herramienta := "N/A".toList, grupo := "A".toList, tiempo := 0, distancia := 10,
           avances := ∅, rpms := ∅ }] :=
  claim_C6 c6WitMach (freshGroup "W".toList) 5 rfl (by norm_num)

/-- Claim C7: a move processed in RAPID motion mode adds nothing to the
open group's time or distance, yet the position is always set to the
move's target (the coordinate fold), so a group whose body contains only
rapid moves ends with time 0 and distance 0 — and the rapid move of
group A in the second scenario places the machine at X=10, from where
group B's cutting move to X=20 measures distance 10. -/
theorem claim_C7 :
    (∀ (m : Machine) (g : GroupRecord) (d : ℚ), m.motion = Motion.G0 → chargeMove m g d = g) ∧
    (∀ (m : Machine) (g : GroupRecord) (line : List Char) (m2 : Machine) (g2 : GroupRecord),
      applyCoords m g line = Except.ok (m2, g2) →
      applyCoordList (m.posX, m.posY, m.posZ) (findCoords line) =
        Except.ok (m2.posX, m2.posY, m2.posZ)) ∧
    parse c7aInput =
      Except.ok
        [{ herramienta := "N/A".toList, grupo := "A".toList, tiempo := 0, distancia := 0,
           avances := ∅, rpms := ∅ }] ∧
    parse c7bInput =
      Except.ok
        [{ herramienta := "N/A".toList, grupo := "A".toList, tiempo := 0, distancia := 0,
           avances := ∅, rpms := ∅ },
         { herramienta := "N/A".toList, grupo := "B".toList, tiempo := 10, distancia := 10,
           avances := {(60 : ℚ)}, rpms := ∅ }] := by
  refine ⟨?_, ?_, ?_, ?_⟩
  · intro m g d h
    unfold chargeMove
    rw [if_neg (fun hcon => by rw [h] at hcon; exact Motion.noConfusion hcon.1)]
  · intro m g line m2 g2 h
    unfold applyCoords at h
    split at h
    · next hc =>
        rw [hc]
        simp only [Except.ok.injEq, Prod.mk.injEq] at h
        rw [← h.1]
        rfl
    · split at h
      · exact Except.noConfusion h
      · next tx ty tz heq =>
          rw [heq]
          simp only [Except.ok.injEq, Prod.mk.injEq] at h
          rw [← h.1]
  · with_unfolding_all rfl
  · with_unfolding_all rfl

/-- Witness for claim C7: the rapid-move part applied at a concrete
machine in G0 mode with distance 5. -/
theorem claim_C7_witness :
    chargeMove initState.mach (freshGroup "W".toList) 5 = freshGroup "W".toList :=
  claim_C7.1 initState.mach (freshGroup "W".toList) 5 rfl

/-- Claim C9: parsing the exact end-to-end input yields one record with
group name Roughing, the default tool id N/A, distance 100, time
`(100/500)*60 = 12` seconds, feed set containing exactly 500 and empty rpm
set — the G0 return move contributes nothing. -/
theorem claim_C9 :
    parse c9Input =
      Except.ok
        [{ herramienta := "N/A".toList, grupo := "Roughing".toList, tiempo := 12,
           distancia := 100, avances := {(500 : ℚ)}, rpms := ∅ }] := by
  with_unfolding_all rfl

-- When every coordinate payload parses, the coordinate fold succeeds.
theorem applyCoordList_noFail (cs : List (Char × List Char))
    (h : ∀ p ∈ cs, (pyFloat p.2).isSome = true) :
    ∀ t : ℚ × ℚ × ℚ, ∃ t2, applyCoordList t cs = Except.ok t2 := by
  induction cs with
  | nil => exact fun t => ⟨t, rfl⟩
  | cons p rest ih =>
      intro t
      obtain ⟨a, txt⟩ := p
      obtain ⟨x, y, z⟩ := t
      rcases Option.isSome_iff_exists.mp (h (a, txt) (List.mem_cons_self _ _)) with ⟨v, hv⟩
      have hrest : ∀ q ∈ rest, (pyFloat q.2).isSome = true :=
        fun q hq => h q (List.mem_cons_of_mem _ hq)
      unfold applyCoordList
      simp only [hv]
      exact ih hrest _

-- When the feed payload (if any) parses, the feed step succeeds.
theorem applyFeed_noFail (m : Machine) (g : GroupRecord) (line : List Char)
    (h : feedTokenOk line = true) :
    ∃ r, applyFeed m g line = Except.ok r := by
  unfold feedTokenOk at h
  unfold applyFeed
  split
  · exact ⟨_, rfl⟩
  · next txt hs =>
      rw [hs] at h
      rcases Option.isSome_iff_exists.mp h with ⟨v, hv⟩
      simp only [hv]
      exact ⟨_, rfl⟩

-- When every coordinate payload parses, the movement step succeeds.
theorem applyCoords_noFail (m : Machine) (g : GroupRecord) (line : List Char)
    (h : coordTokensOk line = true) :
    ∃ r, applyCoords m g line = Except.ok r := by
  have hall : ∀ q ∈ findCoords line, (pyFloat q.2).isSome = true :=
    fun q hq => List.all_eq_true.mp h q hq
  obtain ⟨t2, ht2⟩ := applyCoordList_noFail (findCoords line) hall (m.posX, m.posY, m.posZ)
  unfold applyCoords
  split
  · exact ⟨_, rfl⟩
  · obtain ⟨tx, ty, tz⟩ := t2
    simp only [ht2]
    exact ⟨_, rfl⟩

-- A line whose numeric payloads all parse cannot raise in the token work.
theorem processTokens_noFail (m : Machine) (g : GroupRecord) (line : List Char)
    (h : lineNumericOk line = true) :
    ∃ r, processTokens m g line = Except.ok r := by
  unfold lineNumericOk at h
  rw [Bool.and_eq_true] at h
  obtain ⟨hf, hc⟩ := h
  obtain ⟨⟨m3, g3⟩, hfeed⟩ :=
    applyFeed_noFail (applyRpm (applyFeedMode (applyMotion m line) line) g line).1
      (applyRpm (applyFeedMode (applyMotion m line) line) g line).2 line hf
  simp only [processTokens, hfeed]
  exact applyCoords_noFail _ _ _ hc

-- A line whose numeric payloads all parse cannot raise at all.
theorem processLine_noFail (st : ParseState) (line : List Char)
    (h : lineNumericOk line = true) :
    ∃ st2, processLine st line = Except.ok st2 := by
  cases hc : (applyGroupEnd (applyGroupBegin st line) line).current with
  | none =>
      exact ⟨applyGroupEnd (applyGroupBegin st line) line, by simp only [processLine, hc]⟩
  | some g =>
      obtain ⟨⟨mr, gr⟩, hr⟩ :=
        processTokens_noFail (applyGroupEnd (applyGroupBegin st line) line).mach g line h
      exact ⟨{ mach := mr, results := (applyGroupEnd (applyGroupBegin st line) line).results,
               current := some gr }, by simp only [processLine, hc, hr]⟩

-- Iterating `processLine_noFail` over a whole program.
theorem runLines_noFail (ls : List (List Char))
    (h : ∀ l ∈ ls, lineNumericOk l = true) :
    ∀ st, ∃ st2, runLines st ls = Except.ok st2 := by
  induction ls with
  | nil => exact fun st => ⟨st, rfl⟩
  | cons l ls ih =>
      intro st
      obtain ⟨st1, h1⟩ := processLine_noFail st l (h l (List.mem_cons_self _ _))
      obtain ⟨st2, h2⟩ := ih (fun x hx => h x (List.mem_cons_of_mem _ hx)) st1
      exact ⟨st2, by simp only [runLines, h1, h2]⟩

/-- Claim C3 is false on the code: a feed token whose captured numeric
text is the single character made of a minus sign is matched by the feed
pattern, and Python `float` then raises `ValueError`, so the parse of
`GROUP_BEGIN(a,"A")` followed by the line `F-` raises instead of
returning an output sequence. -/
theorem claim_C3_counterexample : parse c3BadInput = Except.error PyError.valueError := by
  with_unfolding_all rfl

/-- Claim C3 amended: the parse is total only for inputs whose matched
feed and coordinate payloads all parse as floats; for every such input it
returns an output sequence. A matched payload that `float` cannot parse
(such as a bare minus sign or a bare dot) instead raises `ValueError`
inside the parse — such a line is NOT silently skipped. -/
theorem claim_C3 (s : String)
    (h : ∀ l ∈ pySplitlines s.toList, lineNumericOk l = true) :
    ∃ rs, parse s = Except.ok rs := by
  obtain ⟨st, hst⟩ := runLines_noFail (pySplitlines s.toList) h initState
  refine ⟨(match st.current with
           | some g => st.results ++ [g]
           | none => st.results), ?_⟩
  simp only [parse, hst]

/-- Witness for the amended claim C3 at an input all of whose numeric
payloads parse. -/
theorem claim_C3_witness : ∃ rs, parse c3GoodInput = Except.ok rs :=
  claim_C3 c3GoodInput (by decide)

-- The modelled square root is non-negative on every input.
theorem sqrtQ_nonneg (q : ℚ) : 0 ≤ sqrtQ q := by
  unfold sqrtQ
  exact div_nonneg (Nat.cast_nonneg _) (Nat.cast_nonneg _)

-- The move time is non-negative whenever the distance is, whatever the
-- sign of the modal feed: both charging branches require a positive feed.
theorem timeForMove_nonneg (b : Bool) (r f d : ℚ) (hd : 0 ≤ d) :
    0 ≤ timeForMove b r f d := by
  unfold timeForMove
  split
  · next h => exact mul_nonneg (div_nonneg hd (mul_pos h.2.2 h.2.1).le) (by norm_num)
  · split
    · next h => exact mul_nonneg (div_nonneg hd h.2.le) (by norm_num)
    · exact le_refl 0

-- Charging a move with non-negative distance keeps accumulators non-negative.
theorem chargeMove_recOk (m : Machine) (g : GroupRecord) (d : ℚ)
    (hg : recOk g) (hd : 0 ≤ d) : recOk (chargeMove m g d) := by
  unfold chargeMove
  split
  · exact ⟨add_nonneg hg.1 (timeForMove_nonneg _ _ _ _ hd), add_nonneg hg.2 hd⟩
  · exact hg

-- The spindle step does not touch the accumulators.
theorem applyRpm_recOk (m : Machine) (g : GroupRecord) (line : List Char)
    (hg : recOk g) : recOk (applyRpm m g line).2 := by
  unfold applyRpm
  split
  · exact hg
  · exact hg

-- The tool step does not touch the accumulators.
theorem applyTool_recOk (g : GroupRecord) (line : List Char)
    (hg : recOk g) : recOk (applyTool g line) := by
  unfold applyTool
  split
  · exact hg
  · exact hg

-- The feed step does not touch the accumulators.
theorem applyFeed_recOk (m : Machine) (g : GroupRecord) (line : List Char)
    (m2 : Machine) (g2 : GroupRecord)
    (h : applyFeed m g line = Except.ok (m2, g2)) (hg : recOk g) : recOk g2 := by
  unfold applyFeed at h
  split at h
  · simp only [Except.ok.injEq, Prod.mk.injEq] at h
    rw [← h.2]
    exact hg
  · split at h
    · exact Except.noConfusion h
    · simp only [Except.ok.injEq, Prod.mk.injEq] at h
      rw [← h.2]
      exact hg

-- The movement step keeps the accumulators non-negative.
theorem applyCoords_recOk (m : Machine) (g : GroupRecord) (line : List Char)
    (m2 : Machine) (g2 : GroupRecord)
    (h : applyCoords m g line = Except.ok (m2, g2)) (hg : recOk g) : recOk g2 := by
  unfold applyCoords at h
  split at h
  · simp only [Except.ok.injEq, Prod.mk.injEq] at h
    rw [← h.2]
    exact hg
  · split at h
    · exact Except.noConfusion h
    · simp only [Except.ok.injEq, Prod.mk.injEq] at h
      rw [← h.2]
      exact chargeMove_recOk _ _ _ hg (sqrtQ_nonneg _)

-- The whole token work of one line keeps the accumulators non-negative.
theorem processTokens_recOk (m : Machine) (g : GroupRecord) (line : List Char)
    (m2 : Machine) (g2 : GroupRecord)
    (h : processTokens m g line = Except.ok (m2, g2)) (hg : recOk g) : recOk g2 := by
  simp only [processTokens] at h
  split at h
  · exact Except.noConfusion h
  · next m3 g3 heq =>
      exact applyCoords_recOk _ _ _ _ _ h
        (applyTool_recOk _ _ (applyFeed_recOk _ _ _ _ _ heq (applyRpm_recOk _ _ _ hg)))

-- A fresh group has non-negative accumulators.
theorem freshGroup_recOk (name : List Char) : recOk (freshGroup name) :=
  ⟨le_refl 0, le_refl 0⟩

-- Opening a group preserves the state invariant.
theorem applyGroupBegin_stOk (st : ParseState) (line : List Char)
    (h : stOk st) : stOk (applyGroupBegin st line) := by
  unfold applyGroupBegin
  split
  · exact h
  · refine ⟨?_, ?_⟩
    · intro g hg
      cases hc : st.current with
      | none =>
          rw [hc] at hg
          exact h.1 g hg
      | some g0 =>
          rw [hc] at hg
          rcases List.mem_append.mp hg with hin | hin
          · exact h.1 g hin
          · rw [List.mem_singleton.mp hin]
            exact h.2 g0 hc
    · intro g hg
      rw [← Option.some.injEq _ _ |>.mp hg]
      exact freshGroup_recOk _

-- Closing a group preserves the state invariant.
theorem applyGroupEnd_stOk (st : ParseState) (line : List Char)
    (h : stOk st) : stOk (applyGroupEnd st line) := by
  unfold applyGroupEnd
  split
  · split
    · next g0 hc =>
        refine ⟨?_, ?_⟩
        · intro g hg
          rcases List.mem_append.mp hg with hin | hin
          · exact h.1 g hin
          · rw [List.mem_singleton.mp hin]
            exact h.2 g0 hc
        · intro g hg
          exact Option.noConfusion hg
    · exact h
  · exact h

-- One loop iteration preserves the state invariant.
theorem processLine_stOk (st : ParseState) (line : List Char) (st2 : ParseState)
    (h : processLine st line = Except.ok st2) (hst : stOk st) : stOk st2 := by
  have h1 : stOk (applyGroupEnd (applyGroupBegin st line) line) :=
    applyGroupEnd_stOk _ _ (applyGroupBegin_stOk _ _ hst)
  simp only [processLine] at h
  split at h
  · next hc =>
      rw [← Except.ok.injEq _ _ |>.mp h]
      exact h1
  · next g hc =>
      split at h
      · exact Except.noConfusion h
      · next mr gr heq =>
          rw [← Except.ok.injEq _ _ |>.mp h]
          refine ⟨h1.1, ?_⟩
          intro g2 hg2
          rw [← Option.some.injEq _ _ |>.mp hg2]
          exact processTokens_recOk _ _ _ _ _ heq (h1.2 g hc)

-- Running the loop preserves the state invariant.
theorem runLines_stOk (ls : List (List Char)) :
    ∀ st st2, runLines st ls = Except.ok st2 → stOk st → stOk st2 := by
  induction ls with
  | nil =>
      intro st st2 h hst
      rw [← Except.ok.injEq _ _ |>.mp h]
      exact hst
  | cons l ls ih =>
      intro st st2 h hst
      unfold runLines at h
      split at h
      · next st1 heq =>
          exact ih st1 st2 h (processLine_stOk st l st1 heq hst)
      · exact Except.noConfusion h

/-- Claim C8: every group record in a successful parse of any input text
has non-negative accumulated cut time and cut distance, even though the
modal feed may have been set to a negative value by a token such as
`F-100` (the witness input does exactly that). -/
theorem claim_C8 (s : String) (rs : List GroupRecord)
    (h : parse s = Except.ok rs) :
    ∀ g ∈ rs, 0 ≤ g.tiempo ∧ 0 ≤ g.distancia := by
  unfold parse at h
  split at h
  · exact Except.noConfusion h
  · next st heq =>
      have hst : stOk st := runLines_stOk _ _ _ heq ⟨fun g hg => absurd hg (List.not_mem_nil g), fun g hg => Option.noConfusion hg⟩
      rw [← Except.ok.injEq _ _ |>.mp h]
      intro g hg
      cases hc : st.current with
      | none =>
          rw [hc] at hg
          exact hst.1 g hg
      | some g0 =>
          rw [hc] at hg
          rcases List.mem_append.mp hg with hin | hin
          · exact hst.1 g hin
          · rw [List.mem_singleton.mp hin]
            exact hst.2 g0 hc

/-- Witness for claim C8 at the parse of the input whose feed is set to
-100: the single emitted record has time 0 and distance 10, both
non-negative. -/
theorem claim_C8_witness : 0 ≤ c8Rec.tiempo ∧ 0 ≤ c8Rec.distancia :=
  claim_C8 c8Input [c8Rec] (by with_unfolding_all rfl) c8Rec (List.mem_singleton.mpr rfl)

end Tolls
